import Mathlib

/-!
# Verification of the unified shell-surface layer (`src/shell/mod.rs`)

This file gives a shallow embedding of the shell-surface unification layer of
the client toolkit: the canonical `Event` model, the `ShellSurface` capability
contract, the factory `create_shell_surface`, and the per-variant adapters
(`wl`, `xdg`, `zxdg`).

`src/shell/mod.rs` contains the `Event` enum, the trait declaration and the
factory dispatch; the three adapter modules are declared there (`mod wl;`,
`mod xdg;`, `mod zxdg;`) but their files are not part of the source tree, so
the adapters' behaviour (configure coalescing, close translation, per-variant
degradation, `get_xdg` implementations) is modelled from the specification,
as marked on each such definition.
-/

namespace ClientToolkit

/-- Models the external `xdg_toplevel::State` enumeration of the current
protocol generation, re-exported by `src/shell/mod.rs` line 14
(`pub use wayland_protocols::xdg_shell::client::xdg_toplevel::State`).
Numeric wire codes: maximized = 1, fullscreen = 2, resizing = 3,
activated = 4. -/
inductive State where
  | maximized
  | fullscreen
  | resizing
  | activated
deriving DecidableEq, Repr

/-- The canonical window-state vocabulary: the full enumeration of `State`. -/
def stateVocabulary : List State :=
  [State.maximized, State.fullscreen, State.resizing, State.activated]

theorem mem_stateVocabulary (s : State) : s ∈ stateVocabulary := by
  cases s <;> simp [stateVocabulary]

/-- Modelled from the spec: decoding of one native wire state code into the
canonical vocabulary (the adapter files `wl.rs`/`xdg.rs`/`zxdg.rs` that hold
the state-translation tables are missing from the source tree).  Unknown or
future native states are dropped silently (decode to `none`). -/
def stateFromNative (code : Nat) : Option State :=
  match code with
  | 1 => some State.maximized
  | 2 => some State.fullscreen
  | 3 => some State.resizing
  | 4 => some State.activated
  | _ => none

/-- Modelled from the spec: translation of a native state array into the
canonical set of `WindowState`s — unknown codes dropped, duplicates removed
(the spec calls the result a set). -/
def translateStates (codes : List Nat) : List State :=
  (codes.filterMap stateFromNative).dedup

/-- The canonical event enum of `src/shell/mod.rs` lines 24-49:
`Configure { new_size : Option<(u32, u32)>, states : Vec<State> }` and
`Close`. -/
inductive Event where
  | configure (new_size : Option (Nat × Nat)) (states : List State)
  | close
deriving DecidableEq, Repr

/-- `true` exactly on the canonical `Close` event. -/
def Event.isClose : Event → Bool
  | Event.close => true
  | _ => false

/-- The three protocol generations of the spec's data model:
Legacy = `wl_shell`, Versioned = `zxdg_shell_v6`, Current = `xdg_shell`. -/
inductive Variant where
  | legacy
  | versioned
  | current
deriving DecidableEq, Repr

/-- Whether the variant's protocol has a terminating acknowledgment message
for configure batches.  `wl_shell` (Legacy) has none; both xdg generations
end a batch with an `xdg_surface.configure(serial)` notification which the
client acks back. -/
def Variant.hasAck : Variant → Bool
  | Variant.legacy => false
  | _ => true

/-- Modelled from the spec: the native server-to-client messages an adapter
subscribes to (the adapter files are missing from the source tree).  A
native configure notification carries an optional size suggestion (the xdg
protocols encode "no suggestion" as width = height = 0) and an array of raw
state codes; `ack` is the batch-terminating acknowledgment message; `close`
is a native close request. -/
inductive NativeMsg where
  | configure (new_size : Option (Nat × Nat)) (states : List Nat)
  | ack (serial : Nat)
  | close
deriving DecidableEq, Repr

/-- `true` exactly on a native close notification. -/
def NativeMsg.isClose : NativeMsg → Bool
  | NativeMsg.close => true
  | _ => false

/-- The pending (not yet emitted) configure value an adapter accumulates
between two acknowledgments. -/
structure Pending where
  new_size : Option (Nat × Nat)
  states : List State
deriving DecidableEq, Repr

/-- The pending value at the start of a batch: no size, no states. -/
def Pending.empty : Pending := ⟨none, []⟩

/-- The later of two optional values, field-wise last-write-wins: a later
`some` overrides, a later `none` keeps the earlier value. -/
def lastOr {α : Type} (o d : Option α) : Option α :=
  match o with
  | some x => some x
  | none => d

/-- Modelled from the spec: folding one native configure notification into
the pending value — last-write-wins per field (a present size overrides, an
absent size keeps the previous one; the state array always overrides). -/
def applyConfigure (p : Pending) (sz : Option (Nat × Nat)) (sts : List Nat) : Pending :=
  ⟨lastOr sz p.new_size, translateStates sts⟩

/-- Modelled from the spec: one step of an adapter's native-event handler.
For the xdg generations (which have an acknowledgment message) a configure
notification only updates the pending value and the terminating `ack` emits
exactly one canonical `Configure` and resets the pending value.  For the
Legacy variant each native configure notification is its own complete batch
of one and is emitted immediately; `wl_shell` has no acknowledgment message,
so the `ack` case is unreachable there and modelled as a no-op.  A native
close maps 1:1 to a canonical `Close` in every variant. -/
def stepMsg (v : Variant) (p : Pending) (m : NativeMsg) : Pending × List Event :=
  match v, m with
  | Variant.legacy, NativeMsg.configure sz sts =>
      (Pending.empty, [Event.configure sz (translateStates sts)])
  | Variant.legacy, NativeMsg.ack _ => (p, [])
  | _, NativeMsg.configure sz sts => (applyConfigure p sz sts, [])
  | _, NativeMsg.ack _ => (Pending.empty, [Event.configure p.new_size p.states])
  | _, NativeMsg.close => (p, [Event.close])

/-- Modelled from the spec: an adapter's dispatch loop over a sequence of
native messages, threading the pending configure value and collecting the
canonical events handed to the caller's callback, in order. -/
def runAdapter (v : Variant) (p : Pending) : List NativeMsg → Pending × List Event
  | [] => (p, [])
  | m :: ms =>
      let s1 := stepMsg v p m
      let s2 := runAdapter v s1.1 ms
      (s2.1, s1.2 ++ s2.2)

/-- A batch is described by its native configure notifications:
each carries an optional size and a raw state array. -/
abbrev BatchItem := Option (Nat × Nat) × List Nat

/-- The native configure message of a batch item. -/
def mkCfgMsg (b : BatchItem) : NativeMsg := NativeMsg.configure b.1 b.2

/-- Spec-side description: the last non-empty size carried by a batch
(`none` if the batch carried no size). -/
def lastWriteSize (batch : List BatchItem) : Option (Nat × Nat) :=
  (batch.filterMap Prod.fst).getLast?

/-- Spec-side description: the last state set carried by a batch
(the empty set if the batch is empty). -/
def lastStateSet (batch : List BatchItem) : List Nat :=
  ((batch.map Prod.snd).getLast?).getD []

/-- An opaque drawable-surface reference (`Proxy<wl_surface::WlSurface>`),
identified by its protocol object id. -/
structure WlSurface where
  id : Nat
deriving DecidableEq, Repr

/-- An opaque `Proxy<xdg_toplevel::XdgToplevel>` reference of the current
protocol generation, identified by its protocol object id. -/
structure XdgToplevelProxy where
  id : Nat
deriving DecidableEq, Repr

/-- Modelled from the spec: the crate-root `Shell` enum (`use Shell;` in
`src/shell/mod.rs`; the crate root is missing from the source tree).  The
factory's match over it in `src/shell/mod.rs` lines 59-63 shows exactly the
three cases `Shell::Wl`, `Shell::Xdg` and `Shell::Zxdg`, each carrying the
resolved shell-protocol proxy, here an object id. -/
inductive Shell where
  | wl (shellId : Nat)
  | xdg (shellId : Nat)
  | zxdg (shellId : Nat)
deriving DecidableEq, Repr

/-- The protocol generation a resolved `Shell` value belongs to. -/
def variantOf : Shell → Variant
  | Shell.wl _ => Variant.legacy
  | Shell.xdg _ => Variant.current
  | Shell.zxdg _ => Variant.versioned

/-- The three adapter types of `src/shell/mod.rs` lines 60-62:
`wl::Wl`, `xdg::Xdg` and `zxdg::Zxdg`. -/
inductive AdapterKind where
  | wlAdapter
  | xdgAdapter
  | zxdgAdapter
deriving DecidableEq, Repr

/-- The per-handle protocol-side state an adapter carries for issuing
requests: its variant and the values last communicated for title, app id,
size bounds and fullscreen/maximized requests. -/
structure HandleState where
  variant : Variant
  title : Option String
  appId : Option String
  minSize : Option (Int × Int)
  maxSize : Option (Int × Int)
  fullscreen : Bool
  maximized : Bool
deriving DecidableEq, Repr

/-- The fresh protocol-side state of a newly promoted shell surface. -/
def HandleState.init (v : Variant) : HandleState :=
  ⟨v, none, none, none, none, false, false⟩

/-- The unified handle returned by the factory: which adapter was selected,
its variant, the current-generation toplevel proxy when one exists, the
installed caller callback (of arbitrary type `κ`) and the protocol-side
state.  Models `Box<ShellSurface>` of `src/shell/mod.rs` line 55. -/
structure ShellSurfaceHandle (κ : Type) where
  adapter : AdapterKind
  variant : Variant
  xdgToplevel : Option XdgToplevelProxy
  callback : κ
  state : HandleState

/-- The factory of `src/shell/mod.rs` lines 51-64: matches on the resolved
`Shell` variant, constructs the matching adapter bound to the given surface,
installs the caller's callback and returns the unified handle.  The adapter
constructors `wl::Wl::create`, `xdg::Xdg::create` and `zxdg::Zxdg::create`
are missing from the source tree; modelled from the spec, they record the
adapter kind, the variant, and (for the current generation only) the
`XdgToplevel` proxy created for the surface. -/
def create_shell_surface {κ : Type} (shell : Shell) (surface : WlSurface)
    (implem : κ) : ShellSurfaceHandle κ :=
  match shell with
  | Shell.wl _ =>
      ⟨AdapterKind.wlAdapter, Variant.legacy, none, implem,
        HandleState.init Variant.legacy⟩
  | Shell.xdg _ =>
      ⟨AdapterKind.xdgAdapter, Variant.current, some ⟨surface.id⟩, implem,
        HandleState.init Variant.current⟩
  | Shell.zxdg _ =>
      ⟨AdapterKind.zxdgAdapter, Variant.versioned, none, implem,
        HandleState.init Variant.versioned⟩

/-- Modelled from the spec: the protocol-escape accessor
(`ShellSurface::get_xdg`, declared at `src/shell/mod.rs` lines 96-101; the
three implementations live in the missing adapter files).  Returns the
`XdgToplevel` proxy the handle holds; only the `xdg` adapter holds one. -/
def get_xdg {κ : Type} (h : ShellSurfaceHandle κ) : Option XdgToplevelProxy :=
  h.xdgToplevel

/-- Modelled from the spec: the outgoing wire requests an operation may
enqueue on the connection (the per-variant request encodings live in the
missing adapter files; here they are kept in canonical shape). -/
inductive WireRequest where
  | resizeReq (seat serial edges : Nat)
  | moveReq (seat serial : Nat)
  | setTitleReq (title : String)
  | setAppIdReq (appId : String)
  | setFullscreenReq (output : Option Nat)
  | unsetFullscreenReq
  | setMaximizedReq
  | unsetMaximizedReq
  | setMinimizedReq
  | setGeometryReq (x y width height : Int)
  | setMinSizeReq (size : Option (Int × Int))
  | setMaxSizeReq (size : Option (Int × Int))
deriving DecidableEq, Repr

/-- Modelled from the spec: `resize` — an interactive-resize request,
supported by all variants. -/
def resize (h : HandleState) (seat serial edges : Nat) :
    HandleState × List WireRequest :=
  (h, [WireRequest.resizeReq seat serial edges])

/-- Modelled from the spec: `move_` — an interactive-move request,
supported by all variants. -/
def move_ (h : HandleState) (seat serial : Nat) :
    HandleState × List WireRequest :=
  (h, [WireRequest.moveReq seat serial])

/-- Modelled from the spec: `set_title`, supported by all variants. -/
def set_title (h : HandleState) (title : String) :
    HandleState × List WireRequest :=
  ({ h with title := some title }, [WireRequest.setTitleReq title])

/-- Modelled from the spec: `set_app_id` — silently ignored on the Legacy
variant, which lacks the concept. -/
def set_app_id (h : HandleState) (appId : String) :
    HandleState × List WireRequest :=
  match h.variant with
  | Variant.legacy => (h, [])
  | _ => ({ h with appId := some appId }, [WireRequest.setAppIdReq appId])

/-- Modelled from the spec: `set_fullscreen`, optionally pinned to an
output, supported by all variants. -/
def set_fullscreen (h : HandleState) (output : Option Nat) :
    HandleState × List WireRequest :=
  ({ h with fullscreen := true }, [WireRequest.setFullscreenReq output])

/-- Modelled from the spec: `unset_fullscreen`, supported by all variants. -/
def unset_fullscreen (h : HandleState) : HandleState × List WireRequest :=
  ({ h with fullscreen := false }, [WireRequest.unsetFullscreenReq])

/-- Modelled from the spec: `set_maximized`, supported by all variants. -/
def set_maximized (h : HandleState) : HandleState × List WireRequest :=
  ({ h with maximized := true }, [WireRequest.setMaximizedReq])

/-- Modelled from the spec: `unset_maximized`, supported by all variants. -/
def unset_maximized (h : HandleState) : HandleState × List WireRequest :=
  ({ h with maximized := false }, [WireRequest.unsetMaximizedReq])

/-- Modelled from the spec: `set_minimized` — no-op on the Legacy variant,
whose protocol lacks the request. -/
def set_minimized (h : HandleState) : HandleState × List WireRequest :=
  match h.variant with
  | Variant.legacy => (h, [])
  | _ => (h, [WireRequest.setMinimizedReq])

/-- Modelled from the spec: `set_geometry` — no-op on the Legacy variant,
whose protocol has no geometry concept. -/
def set_geometry (h : HandleState) (x y width height : Int) :
    HandleState × List WireRequest :=
  match h.variant with
  | Variant.legacy => (h, [])
  | _ => (h, [WireRequest.setGeometryReq x y width height])

/-- Modelled from the spec: `set_min_size` — `none` clears the bound; no-op
on the Legacy variant, which has no size-bound concept. -/
def set_min_size (h : HandleState) (size : Option (Int × Int)) :
    HandleState × List WireRequest :=
  match h.variant with
  | Variant.legacy => (h, [])
  | _ => ({ h with minSize := size }, [WireRequest.setMinSizeReq size])

/-- Modelled from the spec: `set_max_size` — `none` clears the bound; no-op
on the Legacy variant, which has no size-bound concept. -/
def set_max_size (h : HandleState) (size : Option (Int × Int)) :
    HandleState × List WireRequest :=
  match h.variant with
  | Variant.legacy => (h, [])
  | _ => ({ h with maxSize := size }, [WireRequest.setMaxSizeReq size])

/-- The effective interactive-resize minimum bound a handle's compositor
knows: the Legacy protocol has no size-bound concept, so no bound ever
exists there. -/
def effectiveMinBound (h : HandleState) : Option (Int × Int) :=
  match h.variant with
  | Variant.legacy => none
  | _ => h.minSize

/-- The effective interactive-resize maximum bound, see `effectiveMinBound`. -/
def effectiveMaxBound (h : HandleState) : Option (Int × Int) :=
  match h.variant with
  | Variant.legacy => none
  | _ => h.maxSize

/-- One invocation of an operation of the capability contract
(`src/shell/mod.rs` lines 71-95), with its arguments. -/
inductive OpCall where
  | resizeOp (seat serial edges : Nat)
  | moveOp (seat serial : Nat)
  | setTitleOp (title : String)
  | setAppIdOp (appId : String)
  | setFullscreenOp (output : Option Nat)
  | unsetFullscreenOp
  | setMaximizedOp
  | unsetMaximizedOp
  | setMinimizedOp
  | setGeometryOp (x y width height : Int)
  | setMinSizeOp (size : Option (Int × Int))
  | setMaxSizeOp (size : Option (Int × Int))
deriving DecidableEq, Repr

/-- The unified call interface as the caller sees it.  Every method of the
trait in `src/shell/mod.rs` returns `()` — there is no error channel — so
the model, which wraps each operation's effect (next state plus enqueued
wire requests) in `Except` to make an error channel expressible, can only
ever produce `Except.ok`. -/
def callOp (h : HandleState) : OpCall → Except String (HandleState × List WireRequest)
  | OpCall.resizeOp seat serial edges => Except.ok (resize h seat serial edges)
  | OpCall.moveOp seat serial => Except.ok (move_ h seat serial)
  | OpCall.setTitleOp title => Except.ok (set_title h title)
  | OpCall.setAppIdOp appId => Except.ok (set_app_id h appId)
  | OpCall.setFullscreenOp output => Except.ok (set_fullscreen h output)
  | OpCall.unsetFullscreenOp => Except.ok (unset_fullscreen h)
  | OpCall.setMaximizedOp => Except.ok (set_maximized h)
  | OpCall.unsetMaximizedOp => Except.ok (unset_maximized h)
  | OpCall.setMinimizedOp => Except.ok (set_minimized h)
  | OpCall.setGeometryOp x y width height => Except.ok (set_geometry h x y width height)
  | OpCall.setMinSizeOp size => Except.ok (set_min_size h size)
  | OpCall.setMaxSizeOp size => Except.ok (set_max_size h size)

/-- Modelled from the spec: the transport's willingness to create the
protocol object(s) a variant needs for a surface (the adapter constructors
that talk to the transport are missing from the source tree). -/
structure Transport where
  canCreate : Shell → WlSurface → Bool

/-- Modelled from the spec: the factory as seen with a fallible transport
— construction failure is fatal for the surface, reported synchronously to
the factory's caller, and no handle is produced. -/
def create_shell_surface_checked {κ : Type} (t : Transport) (shell : Shell)
    (surface : WlSurface) (implem : κ) :
    Except String (ShellSurfaceHandle κ) :=
  if t.canCreate shell surface then
    Except.ok (create_shell_surface shell surface implem)
  else
    Except.error "could not create protocol object"

/-! ## Helper lemmas about the adapter dispatch loop -/

theorem runAdapter_append (v : Variant) (p : Pending) (xs ys : List NativeMsg) :
    runAdapter v p (xs ++ ys) =
      ((runAdapter v (runAdapter v p xs).1 ys).1,
        (runAdapter v p xs).2 ++ (runAdapter v (runAdapter v p xs).1 ys).2) := by
  induction xs generalizing p with
  | nil => simp [runAdapter]
  | cons m ms ih => simp [runAdapter, ih]

/-- Folding a whole batch of configure notifications into the pending value. -/
def foldBatch (p : Pending) (batch : List BatchItem) : Pending :=
  batch.foldl (fun q b => applyConfigure q b.1 b.2) p

theorem runAdapter_configures (v : Variant) (hv : v.hasAck = true)
    (p : Pending) (batch : List BatchItem) :
    runAdapter v p (batch.map mkCfgMsg) = (foldBatch p batch, []) := by
  induction batch generalizing p with
  | nil => simp [runAdapter, foldBatch]
  | cons b bs ih =>
      cases v with
      | legacy => simp [Variant.hasAck] at hv
      | versioned => simp [runAdapter, stepMsg, mkCfgMsg, foldBatch, List.foldl_cons, ih]
      | current => simp [runAdapter, stepMsg, mkCfgMsg, foldBatch, List.foldl_cons, ih]

theorem lastOr_none {α : Type} (o : Option α) : lastOr o none = o := by
  cases o <;> rfl

theorem foldBatch_new_size (batch : List BatchItem) (p : Pending) :
    (foldBatch p batch).new_size = lastOr (lastWriteSize batch) p.new_size := by
  induction batch using List.reverseRecOn generalizing p with
  | nil => simp [foldBatch, lastWriteSize, lastOr]
  | append_singleton bs b ih =>
      rw [foldBatch, List.foldl_append]
      cases hb : b.1 with
      | some s =>
          simp [applyConfigure, lastOr, lastWriteSize, List.filterMap_append, hb,
            List.getLast?_concat]
      | none =>
          have : lastWriteSize (bs ++ [b]) = lastWriteSize bs := by
            simp [lastWriteSize, List.filterMap_append, hb]
          rw [this]
          simpa [applyConfigure, lastOr, hb, foldBatch] using ih p

theorem foldBatch_states (batch : List BatchItem) (p : Pending) :
    (foldBatch p batch).states =
      match (batch.map Prod.snd).getLast? with
      | some sts => translateStates sts
      | none => p.states := by
  induction batch using List.reverseRecOn generalizing p with
  | nil => simp [foldBatch]
  | append_singleton bs b ih =>
      rw [foldBatch, List.foldl_append]
      simp [applyConfigure, List.getLast?_concat]

theorem foldBatch_states_empty (batch : List BatchItem) :
    (foldBatch Pending.empty batch).states = translateStates (lastStateSet batch) := by
  rw [foldBatch_states]
  cases hlast : (batch.map Prod.snd).getLast? with
  | some sts => simp [lastStateSet, hlast]
  | none => simp [lastStateSet, hlast, translateStates, Pending.empty]

/-! ## Claim theorems -/

/-- C1: For every variant adapter, a batch of native configure notifications
followed by one terminating acknowledgment yields exactly one `Configure`
event, whose `new_size` equals the last non-empty size in the batch (`none`
if the batch carried no size) and whose `states` equals (the canonical
translation of) the last state set in the batch — last-write-wins per field.
For the Legacy variant, whose protocol has no acknowledgment message, each
native configure notification is its own complete batch of one, terminated
by the notification itself. -/
theorem C1_configure_coalescing (v : Variant) :
    (v.hasAck = true →
      ∀ (batch : List BatchItem) (serial : Nat),
        (runAdapter v Pending.empty (batch.map mkCfgMsg ++ [NativeMsg.ack serial])).2
          = [Event.configure (lastWriteSize batch)
              (translateStates (lastStateSet batch))])
    ∧ (v.hasAck = false →
      ∀ (sz : Option (Nat × Nat)) (sts : List Nat),
        (runAdapter v Pending.empty [NativeMsg.configure sz sts]).2
          = [Event.configure sz (translateStates sts)]) := by
  constructor
  · intro hv batch serial
    rw [runAdapter_append, runAdapter_configures v hv]
    have hsz : (foldBatch Pending.empty batch).new_size = lastWriteSize batch := by
      rw [foldBatch_new_size, Pending.empty, lastOr_none]
    have hst := foldBatch_states_empty batch
    cases v with
    | legacy => simp [Variant.hasAck] at hv
    | versioned => simp [runAdapter, stepMsg, hsz, hst]
    | current => simp [runAdapter, stepMsg, hsz, hst]
  · intro hv sz sts
    cases v with
    | legacy => simp [runAdapter, stepMsg]
    | versioned => simp [Variant.hasAck] at hv
    | current => simp [Variant.hasAck] at hv

theorem C1_configure_coalescing_witness :
    (runAdapter Variant.current Pending.empty
        (([(some (800, 600), [2]), (none, [2, 4])] : List BatchItem).map mkCfgMsg
          ++ [NativeMsg.ack 1])).2
      = [Event.configure (some (800, 600)) [State.fullscreen, State.activated]]
    ∧ (runAdapter Variant.legacy Pending.empty
        [NativeMsg.configure (some (640, 480)) []]).2
      = [Event.configure (some (640, 480)) []] := by
  constructor
  · have h := (C1_configure_coalescing Variant.current).1 rfl
      [(some (800, 600), [2]), (none, [2, 4])] 1
    simpa using h
  · have h := (C1_configure_coalescing Variant.legacy).2 rfl (some (640, 480)) []
    simpa using h

/-- C2: For every variant adapter, every native close notification is
translated into exactly one canonical `Close` event — never dropped, never
duplicated: over any native message sequence, the number of `Close` events
delivered to the callback equals the number of native close messages. -/
theorem C2_close_one_to_one (v : Variant) (p : Pending) (ms : List NativeMsg) :
    ((runAdapter v p ms).2.countP Event.isClose)
      = ms.countP NativeMsg.isClose := by
  induction ms generalizing p with
  | nil => simp [runAdapter]
  | cons m ms ih =>
      cases v <;> cases m <;>
        simp [runAdapter, stepMsg, List.countP_cons, List.countP_append,
          Event.isClose, NativeMsg.isClose, ih]

/-- C3: For every handle built by the factory, the protocol-escape accessor
`get_xdg` returns a reference to the current-generation toplevel protocol
object if and only if the handle was constructed for the Current
(`xdg_shell`) variant, and returns `none` for handles of the Legacy
(`wl_shell`) and Versioned (`zxdg_shell_v6`) variants; it is a total
function (never fails, never panics). -/
theorem C3_get_xdg_iff_current (κ : Type) (cb : κ) (shell : Shell)
    (surface : WlSurface) :
    ((get_xdg (create_shell_surface shell surface cb)).isSome
        ↔ variantOf shell = Variant.current)
    ∧ (variantOf shell ≠ Variant.current →
        get_xdg (create_shell_surface shell surface cb) = none) := by
  cases shell <;> simp [get_xdg, create_shell_surface, variantOf]

theorem C3_get_xdg_iff_current_witness :
    get_xdg (create_shell_surface (Shell.wl 3) ⟨7⟩ (0 : Nat)) = none
    ∧ get_xdg (create_shell_surface (Shell.zxdg 5) ⟨7⟩ (0 : Nat)) = none
    ∧ (get_xdg (create_shell_surface (Shell.xdg 4) ⟨7⟩ (0 : Nat))).isSome = true := by
  refine ⟨?_, ?_, ?_⟩
  · exact (C3_get_xdg_iff_current Nat 0 (Shell.wl 3) ⟨7⟩).2 (by decide)
  · exact (C3_get_xdg_iff_current Nat 0 (Shell.zxdg 5) ⟨7⟩).2 (by decide)
  · exact (C3_get_xdg_iff_current Nat 0 (Shell.xdg 4) ⟨7⟩).1.mpr rfl

/-- C4: No operation of the capability contract returns a result value or an
error to the caller: every trait method returns unit, so every modelled call
produces `Except.ok` (a next state and a list of enqueued wire requests) and
never an error value — the only feedback channel is the event stream. -/
theorem C4_ops_return_unit_no_error (h : HandleState) (c : OpCall) :
    ∃ r, callOp h c = Except.ok r := by
  cases c <;> exact ⟨_, rfl⟩

/-- The adapter the factory's match arm selects for each resolved shell
variant (`src/shell/mod.rs` lines 59-63). -/
def matchingAdapter : Shell → AdapterKind
  | Shell.wl _ => AdapterKind.wlAdapter
  | Shell.xdg _ => AdapterKind.xdgAdapter
  | Shell.zxdg _ => AdapterKind.zxdgAdapter

/-- C5: For every resolved shell variant, the factory constructs the adapter
matching that variant (`Shell::Wl` maps to the `wl` adapter, `Shell::Zxdg`
to the `zxdg` adapter, `Shell::Xdg` to the `xdg` adapter), installs the
caller-supplied event callback into that adapter, and returns it as the
unified handle carrying the variant's protocol generation. -/
theorem C5_factory_constructs_matching_adapter (κ : Type) (cb : κ)
    (surface : WlSurface) (shell : Shell) :
    (create_shell_surface shell surface cb).adapter = matchingAdapter shell
    ∧ (create_shell_surface shell surface cb).callback = cb
    ∧ (create_shell_surface shell surface cb).variant = variantOf shell := by
  cases shell <;> exact ⟨rfl, rfl, rfl⟩

/-- C6: If the transport cannot create the required protocol object(s) for a
surface, the factory reports the construction failure synchronously to its
caller and produces no handle. -/
theorem C6_construction_failure_no_handle (κ : Type) (t : Transport)
    (shell : Shell) (surface : WlSurface) (cb : κ)
    (hfail : t.canCreate shell surface = false) :
    create_shell_surface_checked t shell surface cb
        = Except.error "could not create protocol object"
    ∧ ∀ hdl : ShellSurfaceHandle κ,
        create_shell_surface_checked t shell surface cb ≠ Except.ok hdl := by
  constructor
  · simp [create_shell_surface_checked, hfail]
  · intro hdl
    simp [create_shell_surface_checked, hfail]

theorem C6_construction_failure_no_handle_witness :
    create_shell_surface_checked ⟨fun _ _ => false⟩ (Shell.xdg 2) ⟨9⟩ (0 : Nat)
        = Except.error "could not create protocol object" :=
  (C6_construction_failure_no_handle Nat ⟨fun _ _ => false⟩ (Shell.xdg 2) ⟨9⟩ 0 rfl).1

/-- C7: For all three variants, calling `set_min_size` or `set_max_size`
with `none` clears any previously set size bound (on Legacy, which has no
size-bound concept, no bound ever exists), and repeating the `none` call
leaves the state unchanged: the clear is idempotent. -/
theorem C7_clear_size_bounds_idempotent (h : HandleState) :
    effectiveMinBound (set_min_size h none).1 = none
    ∧ (set_min_size (set_min_size h none).1 none).1 = (set_min_size h none).1
    ∧ effectiveMaxBound (set_max_size h none).1 = none
    ∧ (set_max_size (set_max_size h none).1 none).1 = (set_max_size h none).1 := by
  cases h with
  | mk v title appId minSize maxSize fullscreen maximized =>
      cases v <;>
        simp [set_min_size, set_max_size, effectiveMinBound, effectiveMaxBound]

/-- C10: The factory's dispatch over the shell variant is total: every value
of the closed three-case `Shell` enum falls in exactly one match arm, and
`create_shell_surface` returns a handle built by that arm's adapter — there
is no fall-through, default, or panicking branch. -/
theorem C10_dispatch_total (κ : Type) (cb : κ) (surface : WlSurface) :
    ∀ shell : Shell,
      (∃ i, shell = Shell.wl i
        ∧ (create_shell_surface shell surface cb).adapter = AdapterKind.wlAdapter)
      ∨ (∃ i, shell = Shell.xdg i
        ∧ (create_shell_surface shell surface cb).adapter = AdapterKind.xdgAdapter)
      ∨ (∃ i, shell = Shell.zxdg i
        ∧ (create_shell_surface shell surface cb).adapter = AdapterKind.zxdgAdapter) := by
  intro shell
  cases shell with
  | wl i => exact Or.inl ⟨i, rfl, rfl⟩
  | xdg i => exact Or.inr (Or.inl ⟨i, rfl, rfl⟩)
  | zxdg i => exact Or.inr (Or.inr ⟨i, rfl, rfl⟩)

theorem stepMsg_states_nodup (v : Variant) (p : Pending) (m : NativeMsg)
    (hp : p.states.Nodup) :
    (stepMsg v p m).1.states.Nodup
    ∧ ∀ sz sts, Event.configure sz sts ∈ (stepMsg v p m).2 → sts.Nodup := by
  cases v <;> cases m <;>
    · constructor
      · first
          | exact hp
          | exact List.nodup_nil
          | exact List.nodup_dedup _
      · intro sz sts hmem
        simp [stepMsg] at hmem
        try rcases hmem with ⟨h1, h2⟩
        all_goals
          first
            | (subst h2; exact List.nodup_dedup _)
            | (subst h2; exact hp)

theorem runAdapter_states_nodup (v : Variant) (ms : List NativeMsg) :
    ∀ p : Pending, p.states.Nodup →
      (runAdapter v p ms).1.states.Nodup
      ∧ ∀ sz sts, Event.configure sz sts ∈ (runAdapter v p ms).2 → sts.Nodup := by
  induction ms with
  | nil =>
      intro p hp
      refine ⟨hp, ?_⟩
      intro sz sts hmem
      simp [runAdapter] at hmem
  | cons m ms ih =>
      intro p hp
      obtain ⟨h1, h2⟩ := stepMsg_states_nodup v p m hp
      obtain ⟨h3, h4⟩ := ih (stepMsg v p m).1 h1
      refine ⟨by simpa [runAdapter] using h3, ?_⟩
      intro sz sts hmem
      rw [show runAdapter v p (m :: ms)
            = ((runAdapter v (stepMsg v p m).1 ms).1,
                (stepMsg v p m).2 ++ (runAdapter v (stepMsg v p m).1 ms).2)
          from rfl] at hmem
      rcases List.mem_append.1 hmem with hmem | hmem
      · exact h2 sz sts hmem
      · exact h4 sz sts hmem

/-- C8: The canonical window-state vocabulary carried by `Configure` events
is exactly the `State` enumeration owned by the current protocol generation
(`xdg_shell`'s toplevel state enum, re-exported at `src/shell/mod.rs` line
14), and the `states` field of every `Configure` event an adapter emits
(starting from a fresh pending value) is a set over that vocabulary: every
element belongs to the vocabulary and no state occurs twice. -/
theorem C8_states_are_canonical_set (v : Variant) (ms : List NativeMsg)
    (sz : Option (Nat × Nat)) (sts : List State)
    (hmem : Event.configure sz sts ∈ (runAdapter v Pending.empty ms).2) :
    sts.Nodup ∧ ∀ s ∈ sts, s ∈ stateVocabulary := by
  refine ⟨?_, fun s _ => mem_stateVocabulary s⟩
  exact (runAdapter_states_nodup v ms Pending.empty List.nodup_nil).2 sz sts hmem

theorem C8_states_are_canonical_set_witness :
    ([State.maximized, State.fullscreen].Nodup
      ∧ ∀ s ∈ [State.maximized, State.fullscreen], s ∈ stateVocabulary) :=
  C8_states_are_canonical_set Variant.current
    [NativeMsg.configure (some (1, 2)) [1, 1, 2], NativeMsg.ack 0]
    (some (1, 2)) [State.maximized, State.fullscreen] (by decide)

end ClientToolkit
